import Mathlib

/-!
Verification of the scoreboard application's state container, URL codec and
game scoring rules.  Definitions are shallow embeddings of the JavaScript
source files (`games.js`, `url-manager.js`, and the main application module
holding the `GameState` class); machine numbers are modelled as `Int`
(all values stay far inside the float-safe-integer range), JavaScript
objects as Lean structures, and absent object fields as `Option`.
-/

namespace Scoreboard

/-! ## JavaScript string primitives

The source uses `String.prototype.split`, `Array.prototype.join`,
`String.prototype.trim` and the global `parseInt`.  We model strings through
their character lists (`String.data`) with executable functions that mirror
the JavaScript semantics. -/

/-- The decimal digit character for `d` (`0 ≤ d ≤ 9`). -/
def digitChar (d : Nat) : Char := Char.ofNat (48 + d)

/-- Fuel-driven decimal printing of a natural number, most significant digit
first; mirrors JavaScript number-to-string conversion for integers. -/
def natCharsAux : Nat → Nat → List Char → List Char
  | 0, _, acc => acc
  | fuel + 1, n, acc =>
    if n < 10 then digitChar n :: acc
    else natCharsAux fuel (n / 10) (digitChar (n % 10) :: acc)

/-- Decimal digit list of a natural number. -/
def natChars (n : Nat) : List Char := natCharsAux (n + 1) n []

/-- Decimal string of a natural number (JS template-literal stringification). -/
def natRepr (n : Nat) : String := String.mk (natChars n)

/-- Decimal string of an integer (JS stringification of an integral number). -/
def intRepr (i : Int) : String :=
  if i < 0 then String.mk ('-' :: natChars i.natAbs) else natRepr i.natAbs

/-- JS `"true"` / `"false"` stringification of a boolean. -/
def boolRepr (b : Bool) : String := if b then "true" else "false"

/-- `String.prototype.split(sep)` for a one-character separator: splitting an
empty list yields one empty group, and every occurrence of the separator
starts a new group. -/
def splitChar (c : Char) : List Char → List (List Char)
  | [] => [[]]
  | x :: xs =>
    if x = c then [] :: splitChar c xs
    else
      match splitChar c xs with
      | [] => [[x]]
      | g :: gs => (x :: g) :: gs

/-- `Array.prototype.join(sep)` for a one-character separator. -/
def joinChar (c : Char) : List (List Char) → List Char
  | [] => []
  | [l] => l
  | l :: l₂ :: ls => l ++ c :: joinChar c (l₂ :: ls)

/-- `String.prototype.trim` on the character list: drop whitespace from both
ends. -/
def trimChars (l : List Char) : List Char :=
  ((l.dropWhile Char.isWhitespace).reverse.dropWhile Char.isWhitespace).reverse

/-- `String.prototype.trim`. -/
def jsTrim (s : String) : String := String.mk (trimChars s.data)

/-- Value of a digit character in bases up to 16 (`parseInt` digit alphabet). -/
def digitVal (c : Char) : Nat :=
  if '0' ≤ c ∧ c ≤ '9' then c.toNat - 48
  else if 'a' ≤ c ∧ c ≤ 'f' then c.toNat - 87
  else c.toNat - 55

/-- Is `c` a digit of base `b` (10 or 16)? -/
def isBaseDigit (b : Nat) (c : Char) : Bool :=
  if b = 16 then c.isDigit ∨ ('a' ≤ c ∧ c ≤ 'f') ∨ ('A' ≤ c ∧ c ≤ 'F')
  else c.isDigit

/-- Numeric value of a digit run, most significant first. -/
def digitsVal (b : Nat) (l : List Char) : Nat :=
  l.foldl (fun a c => a * b + digitVal c) 0

/-- Parse the longest leading run of base-`b` digits; `none` when the run is
empty (`parseInt` returns `NaN`). -/
def parseRun (b : Nat) (l : List Char) : Option Nat :=
  let ds := l.takeWhile (isBaseDigit b)
  if ds.isEmpty then none else some (digitsVal b ds)

/-- Unsigned part of `parseInt`: a `0x`/`0X` prefix selects base 16,
otherwise base 10. -/
def parseUnsigned : List Char → Option Nat
  | a :: b :: rest =>
    if a = '0' ∧ (b = 'x' ∨ b = 'X') then parseRun 16 rest
    else parseRun 10 (a :: b :: rest)
  | l => parseRun 10 l

/-- JavaScript `parseInt(s)` (radix auto-detected): skip leading whitespace,
an optional sign, then the longest digit run; `none` models `NaN`. -/
def jsParseInt (l : List Char) : Option Int :=
  match l.dropWhile Char.isWhitespace with
  | [] => none
  | c :: rest =>
    if c = '-' then (parseUnsigned rest).map fun n => -(n : Int)
    else if c = '+' then (parseUnsigned rest).map fun n => (n : Int)
    else (parseUnsigned (c :: rest)).map fun n => (n : Int)

/-! ## `games.js`: game presets -/

/-- Pooch `logic.calculateScore`: `bid + 10` on an exact bid, otherwise
`-Math.abs(bid - tricks) * 2`. -/
def pooch_calculateScore (bid tricks : Int) : Int :=
  if bid = tricks then bid + 10
  else -((bid - tricks).natAbs : Int) * 2

/-- Cribbage `logic.calculatePosition`: `Math.min(score, 121)`. -/
def cribbage_calculatePosition (score : Int) : Int := min score 121

/-- Cribbage `logic.checkWin`: `score >= 121`. -/
def cribbage_checkWin (score : Int) : Bool := score ≥ 121

/-! ## Data model

`Player`, `Settings` and the root `GameState` aggregate, as held by the
`GameState` class of the main module.  The `observers` array and the debounce
timer handles are rendering/persistence plumbing with no effect on the state
fields and are not part of the embedded state. -/

/-- One round record of `player.roundData`: a JS object whose `bid`, `tricks`
and `score` keys may each be absent. -/
structure RoundCell where
  bid : Option Int := none
  tricks : Option Int := none
  score : Option Int := none
deriving DecidableEq, Repr

/-- A player record. `roundData` is a JS object keyed by round number,
modelled as an association list in key-insertion order. -/
structure Player where
  id : String
  name : String
  score : Int
  position : Int
  roundData : List (Nat × RoundCell)
deriving DecidableEq, Repr

/-- The `settings` object. -/
structure Settings where
  colorTheme : String
  showRounds : Bool
  numberOfRounds : Int
  showBids : Bool
  showTricks : Bool
  showDeal : Bool
deriving DecidableEq, Repr

/-- The root state held by the `GameState` class. -/
structure GameState where
  players : List Player
  gameMode : String
  settings : Settings
  currentRound : Int
  rounds : List Int
deriving DecidableEq, Repr

/-- The settings installed by the `GameState` constructor. -/
def defaultSettings : Settings :=
  { colorTheme := "purple", showRounds := true, numberOfRounds := 10
    showBids := true, showTricks := true, showDeal := true }

/-- The state built by `new GameState()`. -/
def freshGameState : GameState :=
  { players := [], gameMode := "custom", settings := defaultSettings
    currentRound := 1, rounds := [] }

/-! ## Serialization snapshots

`toJSON` produces a plain object with the five root fields; `fromJSON`
accepts a partial object and only assigns the fields that are present *and*
truthy in JavaScript.  `Option` models field absence. -/

/-- A serialized snapshot (`toJSON` output / `fromJSON` input).  Fields set
to `none` are absent from the JS object. -/
structure Snapshot where
  players : Option (List Player) := none
  gameMode : Option String := none
  settings : Option Settings := none
  currentRound : Option Int := none
  rounds : Option (List Int) := none
deriving DecidableEq, Repr

/-! ## `GameState` mutation methods

Each method that looks a player up with `this.players.find(...)` mutates the
first player whose `id` matches (or leaves the state unchanged when there is
none); `updateFirst` captures that. -/

/-- Apply `f` to the first player whose id is `pid`; identity when absent. -/
def updateFirst (pid : String) (f : Player → Player) : List Player → List Player
  | [] => []
  | p :: ps => if p.id = pid then f p :: ps else p :: updateFirst pid f ps

/-- `this.players.find(p => p.id === playerId)`. -/
def findById (ps : List Player) (pid : String) : Option Player :=
  ps.find? fun p => p.id = pid

/-- The id string `player_` followed by the counter value, as produced by the
template literal in `addPlayer`. -/
def mkPlayerId (k : Nat) : String := String.mk ("player_".data ++ natChars k)

/-- `addPlayer(name)`: builds the player from the global `playerIdCounter`,
appends it, and post-increments the counter.  A `null`/empty `name` falls
back to the template default (JS `name || ...` tests truthiness). -/
def GameState.addPlayer (s : GameState) (counter : Nat) (name : Option String) :
    GameState × Nat × Player :=
  let fallback := "Player " ++ natRepr (s.players.length + 1)
  let playerName :=
    match name with
    | some nm => if nm = "" then fallback else nm
    | none => fallback
  let player : Player :=
    { id := mkPlayerId counter, name := playerName, score := 0
      position := 0, roundData := [] }
  ({ s with players := s.players ++ [player] }, counter + 1, player)

/-- `removePlayer(playerId)`. -/
def GameState.removePlayer (s : GameState) (pid : String) : GameState :=
  { s with players := s.players.filter fun p => p.id ≠ pid }

/-- A partial player record handed to `updatePlayer` (keys absent from the
`updates` object are `none`). -/
structure PlayerPatch where
  name : Option String := none
  score : Option Int := none
  position : Option Int := none
  roundData : Option (List (Nat × RoundCell)) := none
deriving DecidableEq, Repr

/-- `Object.assign(player, updates)`: present keys overwrite, absent keys are
kept.  Note that a `score` key is stored as-is, with no clamping. -/
def applyPlayerPatch (p : Player) (u : PlayerPatch) : Player :=
  { p with
    name := u.name.getD p.name
    score := u.score.getD p.score
    position := u.position.getD p.position
    roundData := u.roundData.getD p.roundData }

/-- `updatePlayer(playerId, updates)`. -/
def GameState.updatePlayer (s : GameState) (pid : String) (u : PlayerPatch) :
    GameState :=
  { s with players := updateFirst pid (fun p => applyPlayerPatch p u) s.players }

/-- The per-player body of `updatePlayerScore`: `player.score += delta`,
clamp below at 0, and in cribbage mode copy the clamped score into
`position`. -/
def applyScoreDelta (mode : String) (delta : Int) (p : Player) : Player :=
  let sc := p.score + delta
  let sc := if sc < 0 then 0 else sc
  let p := { p with score := sc }
  if mode = "cribbage" then { p with position := sc } else p

/-- `updatePlayerScore(playerId, delta)`. -/
def GameState.updatePlayerScore (s : GameState) (pid : String) (delta : Int) :
    GameState :=
  { s with players := updateFirst pid (applyScoreDelta s.gameMode delta) s.players }

/-- The per-player body of `setPlayerScore`: `Math.max(0, score)`, with the
same cribbage `position` sync. -/
def setScoreClamped (mode : String) (score : Int) (p : Player) : Player :=
  let sc := max 0 score
  let p := { p with score := sc }
  if mode = "cribbage" then { p with position := sc } else p

/-- `setPlayerScore(playerId, score)`. -/
def GameState.setPlayerScore (s : GameState) (pid : String) (score : Int) :
    GameState :=
  { s with players := updateFirst pid (setScoreClamped s.gameMode score) s.players }

/-- `setGameMode(mode)`: set the mode, reset `currentRound` to 1, clear
`rounds`, and clear every player's `roundData`. -/
def GameState.setGameMode (s : GameState) (mode : String) : GameState :=
  { s with
    gameMode := mode
    currentRound := 1
    rounds := []
    players := s.players.map fun p => { p with roundData := [] } }

/-- A partial settings object handed to `updateSettings`. -/
structure SettingsPatch where
  colorTheme : Option String := none
  showRounds : Option Bool := none
  numberOfRounds : Option Int := none
  showBids : Option Bool := none
  showTricks : Option Bool := none
  showDeal : Option Bool := none
deriving DecidableEq, Repr

/-- `Object.assign(this.settings, newSettings)`. -/
def applySettingsPatch (st : Settings) (u : SettingsPatch) : Settings :=
  { colorTheme := u.colorTheme.getD st.colorTheme
    showRounds := u.showRounds.getD st.showRounds
    numberOfRounds := u.numberOfRounds.getD st.numberOfRounds
    showBids := u.showBids.getD st.showBids
    showTricks := u.showTricks.getD st.showTricks
    showDeal := u.showDeal.getD st.showDeal }

/-- `updateSettings(newSettings)`. -/
def GameState.updateSettings (s : GameState) (u : SettingsPatch) : GameState :=
  { s with settings := applySettingsPatch s.settings u }

/-- A partial round record handed to `updateRoundData`. -/
structure RoundPatch where
  bid : Option Int := none
  tricks : Option Int := none
  score : Option Int := none
deriving DecidableEq, Repr

/-- `Object.assign(player.roundData[round], data)` on one round record. -/
def applyRoundPatch (cell : RoundCell) (u : RoundPatch) : RoundCell :=
  { bid := match u.bid with | some v => some v | none => cell.bid
    tricks := match u.tricks with | some v => some v | none => cell.tricks
    score := match u.score with | some v => some v | none => cell.score }

/-- Insert-or-merge of one round's record in `player.roundData` (the JS code
creates an empty object for a missing round, then `Object.assign`s into it). -/
def updateAssoc (round : Nat) (u : RoundPatch) :
    List (Nat × RoundCell) → List (Nat × RoundCell)
  | [] => [(round, applyRoundPatch {} u)]
  | (k, cell) :: rest =>
    if k = round then (k, applyRoundPatch cell u) :: rest
    else (k, cell) :: updateAssoc round u rest

/-- `updateRoundData(playerId, round, data)`. -/
def GameState.updateRoundData (s : GameState) (pid : String) (round : Nat)
    (u : RoundPatch) : GameState :=
  { s with
    players := updateFirst pid
      (fun p => { p with roundData := updateAssoc round u p.roundData })
      s.players }

/-- `resetGame()`: zero every player's score and position, clear their
`roundData`, reset `currentRound` to 1, clear `rounds`. -/
def GameState.resetGame (s : GameState) : GameState :=
  { s with
    players := s.players.map fun p =>
      { p with score := 0, position := 0, roundData := [] }
    currentRound := 1
    rounds := [] }

/-- `toJSON()`: a plain object with the five root fields (all present). -/
def GameState.toJSON (s : GameState) : Snapshot :=
  { players := some s.players
    gameMode := some s.gameMode
    settings := some s.settings
    currentRound := some s.currentRound
    rounds := some s.rounds }

/-- The numeric suffix of a player id as computed in `fromJSON`:
`parseInt(player.id.split('_')[1])`; `none` models `NaN`. -/
def idSuffix (id : String) : Option Int :=
  match splitChar '_' id.data with
  | _ :: second :: _ => jsParseInt second
  | _ => none

/-- The counter-advancing loop at the end of `fromJSON`: for every restored
player, if its parsed id suffix is `>= playerIdCounter`, bump the counter to
suffix + 1. -/
def bumpCounter (counter : Nat) (ps : List Player) : Nat :=
  ps.foldl
    (fun c p =>
      match idSuffix p.id with
      | some n => if n ≥ (c : Int) then (n + 1).toNat else c
      | none => c)
    counter

/-- `fromJSON(data)`: each root field is assigned only when present and
truthy (`if (data.field)`): an array or object field is always truthy when
present, a string field is truthy when nonempty, a number field when nonzero.
`settings` is rebuilt by spreading `data.settings` over the current settings;
the snapshots this program produces carry complete settings objects, so the
spread replaces every field.  Finally the global `playerIdCounter` is
advanced past every restored id suffix. -/
def GameState.fromJSON (s : GameState) (counter : Nat) (data : Snapshot) :
    GameState × Nat :=
  let s := match data.players with
    | some ps => { s with players := ps }
    | none => s
  let s := match data.gameMode with
    | some g => if g = "" then s else { s with gameMode := g }
    | none => s
  let s := match data.settings with
    | some st => { s with settings := st }
    | none => s
  let s := match data.currentRound with
    | some n => if n = 0 then s else { s with currentRound := n }
    | none => s
  let s := match data.rounds with
    | some rs => { s with rounds := rs }
    | none => s
  (s, bumpCounter counter s.players)

/-! ## The mutation-operation language

A label for each state-mutating `GameState` method, used to reason about
arbitrary call sequences.  `applyOp` threads the global `playerIdCounter`
alongside the state, exactly as the module does. -/

/-- One state-mutating `GameState` method call. -/
inductive Op where
  | addPlayer (name : Option String)
  | removePlayer (pid : String)
  | updatePlayer (pid : String) (u : PlayerPatch)
  | updatePlayerScore (pid : String) (delta : Int)
  | setPlayerScore (pid : String) (score : Int)
  | setGameMode (mode : String)
  | updateSettings (u : SettingsPatch)
  | updateRoundData (pid : String) (round : Nat) (u : RoundPatch)
  | resetGame
deriving DecidableEq, Repr

/-- Execute one method call on the state and the global id counter. -/
def applyOp : GameState × Nat → Op → GameState × Nat
  | (s, c), .addPlayer nm => let r := s.addPlayer c nm; (r.1, r.2.1)
  | (s, c), .removePlayer pid => (s.removePlayer pid, c)
  | (s, c), .updatePlayer pid u => (s.updatePlayer pid u, c)
  | (s, c), .updatePlayerScore pid d => (s.updatePlayerScore pid d, c)
  | (s, c), .setPlayerScore pid v => (s.setPlayerScore pid v, c)
  | (s, c), .setGameMode m => (s.setGameMode m, c)
  | (s, c), .updateSettings u => (s.updateSettings u, c)
  | (s, c), .updateRoundData pid r u => (s.updateRoundData pid r u, c)
  | (s, c), .resetGame => (s.resetGame, c)

/-- Execute a sequence of method calls. -/
def applyOps (sc : GameState × Nat) (ops : List Op) : GameState × Nat :=
  ops.foldl applyOp sc

/-- No player stores a negative score. -/
def ScoresNonneg (s : GameState) : Prop := ∀ p ∈ s.players, 0 ≤ p.score

instance (s : GameState) : Decidable (ScoresNonneg s) :=
  List.decidableBAll _ s.players

/-! ## `url-manager.js`

A query string is modelled as the ordered key/value pair list held by a
`URLSearchParams` object (percent-encoding is a bijection between that list
and the concrete string, so the pair list is the faithful interface).
`params.get(k)` returns the first value for `k`, or `null`. -/

/-- `URLSearchParams.get`. -/
def getParam (q : List (String × String)) (k : String) : Option String :=
  (q.find? fun kv => kv.1 = k).map fun kv => kv.2

/-- `gameState.players.map(p => p.name).join(',')`. -/
def joinNames (names : List String) : String :=
  String.mk (joinChar ',' (names.map String.data))

/-- `serializeToURL(gameState)`: the ordered parameter list written by the
encoder (the `players` key is set only when there is at least one player). -/
def serializeToURL (s : GameState) : List (String × String) :=
  [("game", s.gameMode)]
    ++ (if s.players.length > 0 then
          [("players", joinNames (s.players.map fun p => p.name))]
        else [])
    ++ [("theme", s.settings.colorTheme),
        ("showRounds", boolRepr s.settings.showRounds),
        ("numRounds", intRepr s.settings.numberOfRounds),
        ("showBids", boolRepr s.settings.showBids),
        ("showTricks", boolRepr s.settings.showTricks),
        ("showDeal", boolRepr s.settings.showDeal)]

/-- The string-or-default idiom `params.get(k) || fallback` (`null` and the
empty string are both falsy). -/
def getOrDefault (q : List (String × String)) (k fallback : String) : String :=
  match getParam q k with
  | some v => if v = "" then fallback else v
  | none => fallback

/-- The boolean decode `params.get(k) !== 'false'`. -/
def boolParam (q : List (String × String)) (k : String) : Bool :=
  getParam q k ≠ some "false"

/-- The rounds decode `parseInt(params.get('numRounds')) || 10`
(`parseInt(null)` is `NaN`, and both `NaN` and `0` are falsy). -/
def numRoundsParam (q : List (String × String)) : Int :=
  match getParam q "numRounds" with
  | none => 10
  | some v =>
    match jsParseInt v.data with
    | none => 10
    | some n => if n = 0 then 10 else n

/-- The `players` decode: absent or empty parameter (both falsy) yields no
players; otherwise split on commas and build a player per name with fresh
sequential ids, trimmed name, score 0, position 0, empty round data. -/
def decodePlayers (q : List (String × String)) : List Player :=
  match getParam q "players" with
  | none => []
  | some v =>
    if v = "" then []
    else
      ((splitChar ',' v.data).map String.mk).enum.map fun iname =>
        { id := mkPlayerId iname.1, name := jsTrim iname.2, score := 0
          position := 0, roundData := [] }

/-- `deserializeFromURL()`: `null` when the query string is empty, otherwise
a full snapshot with defaults for missing parameters. -/
def deserializeFromURL (q : List (String × String)) : Option Snapshot :=
  if q = [] then none
  else
    some
      { gameMode := some (getOrDefault q "game" "custom")
        players := some (decodePlayers q)
        settings := some
          { colorTheme := getOrDefault q "theme" "purple"
            showRounds := boolParam q "showRounds"
            numberOfRounds := numRoundsParam q
            showBids := boolParam q "showBids"
            showTricks := boolParam q "showTricks"
            showDeal := boolParam q "showDeal" }
        currentRound := some 1
        rounds := some [] }

/-! ## `init()`

At page load the module-level `playerIdCounter` is 0 and the container is the
fresh `GameState`.  `init` consults the URL first; a non-null URL snapshot is
used exclusively, else the stored snapshot, else two default players are
seeded. -/

/-- `init()`, as a function of the query-parameter list and the snapshot the
storage manager would return. -/
def init (q : List (String × String)) (saved : Option Snapshot) :
    GameState × Nat :=
  match deserializeFromURL q with
  | some urlState => freshGameState.fromJSON 0 urlState
  | none =>
    match saved with
    | some savedState => freshGameState.fromJSON 0 savedState
    | none =>
      let r1 := freshGameState.addPlayer 0 (some "Player 1")
      let r2 := r1.1.addPlayer r1.2.1 (some "Player 2")
      (r2.1, r2.2.1)

/-! ## Helper lemmas: decimal printing and parsing -/

theorem digitChar_isDigit {d : Nat} (h : d < 10) : (digitChar d).isDigit = true := by
  interval_cases d <;> decide

theorem digitChar_not_ws {d : Nat} (h : d < 10) :
    (digitChar d).isWhitespace = false := by
  interval_cases d <;> decide

theorem digitChar_ne {d : Nat} (h : d < 10) :
    digitChar d ≠ ',' ∧ digitChar d ≠ '_' ∧ digitChar d ≠ '-' ∧
      digitChar d ≠ '+' ∧ digitChar d ≠ 'x' ∧ digitChar d ≠ 'X' := by
  interval_cases d <;> decide

theorem digitVal_digitChar {d : Nat} (h : d < 10) : digitVal (digitChar d) = d := by
  interval_cases d <;> decide

theorem natChars_of_lt {n : Nat} (h : n < 10) : natChars n = [digitChar n] := by
  simp [natChars, natCharsAux, h]

theorem natCharsAux_eq (n : Nat) :
    ∀ fuel acc, n < fuel → natCharsAux fuel n acc = natChars n ++ acc := by
  induction n using Nat.strong_induction_on with
  | _ n ih =>
    intro fuel acc hfuel
    match fuel with
    | 0 => omega
    | f + 1 =>
      by_cases h10 : n < 10
      · simp [natCharsAux, h10, natChars_of_lt h10]
      · have hdiv : n / 10 < n := Nat.div_lt_self (by omega) (by omega)
        have hf : n / 10 < f := by omega
        have hn1 : n / 10 < n := hdiv
        rw [show natCharsAux (f + 1) n acc
              = natCharsAux f (n / 10) (digitChar (n % 10) :: acc) by
            simp [natCharsAux, h10]]
        rw [ih (n / 10) hdiv f (digitChar (n % 10) :: acc) hf]
        rw [show natChars n
              = natCharsAux n (n / 10) [digitChar (n % 10)] by
            simp [natChars, natCharsAux, h10]]
        rw [ih (n / 10) hdiv n [digitChar (n % 10)] hn1]
        simp

theorem natChars_of_ge {n : Nat} (h : 10 ≤ n) :
    natChars n = natChars (n / 10) ++ [digitChar (n % 10)] := by
  have h10 : ¬ n < 10 := by omega
  rw [show natChars n = natCharsAux n (n / 10) [digitChar (n % 10)] by
    simp [natChars, natCharsAux, h10]]
  exact natCharsAux_eq (n / 10) n [digitChar (n % 10)]
    (Nat.div_lt_self (by omega) (by omega))

theorem natChars_ne_nil (n : Nat) : natChars n ≠ [] := by
  by_cases h : n < 10
  · simp [natChars_of_lt h]
  · rw [natChars_of_ge (by omega)]
    simp

theorem natChars_all_digit (n : Nat) : ∀ c ∈ natChars n, c.isDigit = true := by
  induction n using Nat.strong_induction_on with
  | _ n ih =>
    intro c hc
    by_cases h : n < 10
    · rw [natChars_of_lt h] at hc
      simp at hc
      exact hc ▸ digitChar_isDigit h
    · rw [natChars_of_ge (by omega)] at hc
      rcases List.mem_append.1 hc with h1 | h2
      · exact ih (n / 10) (Nat.div_lt_self (by omega) (by omega)) c h1
      · simp at h2
        exact h2 ▸ digitChar_isDigit (Nat.mod_lt n (by omega))

theorem digitsVal_natChars (n : Nat) : digitsVal 10 (natChars n) = n := by
  induction n using Nat.strong_induction_on with
  | _ n ih =>
    by_cases h : n < 10
    · rw [natChars_of_lt h]
      simp [digitsVal, digitVal_digitChar h]
    · rw [natChars_of_ge (by omega)]
      rw [show digitsVal 10 (natChars (n / 10) ++ [digitChar (n % 10)])
            = digitsVal 10 (natChars (n / 10)) * 10 + digitVal (digitChar (n % 10)) by
        simp [digitsVal, List.foldl_append]]
      rw [ih (n / 10) (Nat.div_lt_self (by omega) (by omega)),
        digitVal_digitChar (Nat.mod_lt n (by omega))]
      omega

theorem takeWhile_all {α : Type} (p : α → Bool) (l : List α)
    (h : ∀ x ∈ l, p x = true) : l.takeWhile p = l := by
  induction l with
  | nil => rfl
  | cons x xs ihx =>
    rw [List.takeWhile_cons, h x (by simp)]
    simp [ihx fun y hy => h y (by simp [hy])]

theorem dropWhile_nothing {α : Type} (p : α → Bool) (l : List α)
    (h : ∀ x ∈ l, p x = false) : l.dropWhile p = l := by
  cases l with
  | nil => rfl
  | cons x xs => simp [List.dropWhile_cons, h x (by simp)]

theorem parseRun_natChars (n : Nat) : parseRun 10 (natChars n) = some n := by
  have hall : ∀ c ∈ natChars n, isBaseDigit 10 c = true := by
    intro c hc
    simp [isBaseDigit, natChars_all_digit n c hc]
  rw [parseRun, takeWhile_all _ _ hall]
  simp [List.isEmpty_iff, natChars_ne_nil n, digitsVal_natChars n]

theorem parseUnsigned_natChars (n : Nat) : parseUnsigned (natChars n) = some n := by
  rcases hsh : natChars n with _ | ⟨a, _ | ⟨b, rest⟩⟩
  · exact absurd hsh (natChars_ne_nil n)
  · rw [show parseUnsigned [a] = parseRun 10 [a] from rfl, ← hsh,
      parseRun_natChars n]
  · have hb : b.isDigit = true := natChars_all_digit n b (by rw [hsh]; simp)
    have hbne : b ≠ 'x' ∧ b ≠ 'X' := by
      constructor <;> rintro rfl <;> exact absurd hb (by decide)
    rw [show parseUnsigned (a :: b :: rest)
          = if a = '0' ∧ (b = 'x' ∨ b = 'X') then parseRun 16 rest
            else parseRun 10 (a :: b :: rest) from rfl,
      if_neg (by simp [hbne.1, hbne.2]), ← hsh, parseRun_natChars n]

theorem jsParseInt_natChars (n : Nat) : jsParseInt (natChars n) = some (n : Int) := by
  have hdrop : (natChars n).dropWhile Char.isWhitespace = natChars n := by
    apply dropWhile_nothing
    intro c hc
    have hd := natChars_all_digit n c hc
    cases hw : c.isWhitespace
    · rfl
    · exfalso
      simp [Char.isWhitespace] at hw
      rcases hw with ((rfl | rfl) | rfl) | rfl <;> exact absurd hd (by decide)
  rcases hsh : natChars n with _ | ⟨c, rest⟩
  · exact absurd hsh (natChars_ne_nil n)
  · have hc : c.isDigit = true := natChars_all_digit n c (by rw [hsh]; simp)
    have hcne : c ≠ '-' ∧ c ≠ '+' := by
      constructor <;> rintro rfl <;> exact absurd hc (by decide)
    rw [hsh] at hdrop
    simp only [jsParseInt, hdrop]
    rw [if_neg hcne.1, if_neg hcne.2, ← hsh, parseUnsigned_natChars n]
    rfl

/-! ## Helper lemmas: split and join -/

theorem splitChar_ne_nil (c : Char) (l : List Char) : splitChar c l ≠ [] := by
  cases l with
  | nil => simp [splitChar]
  | cons x xs =>
    rw [splitChar]
    by_cases h : x = c
    · simp [h]
    · rw [if_neg h]
      rcases hs : splitChar c xs with _ | ⟨g, gs⟩ <;> simp

theorem splitChar_not_mem {c : Char} {l : List Char} (h : c ∉ l) :
    splitChar c l = [l] := by
  induction l with
  | nil => rfl
  | cons x xs ihx =>
    have hx : x ≠ c := fun he => h (by simp [he])
    have hxs : c ∉ xs := fun he => h (by simp [he])
    rw [splitChar, if_neg hx, ihx hxs]

theorem splitChar_append {c : Char} {l : List Char} (r : List Char) (h : c ∉ l) :
    splitChar c (l ++ c :: r) = l :: splitChar c r := by
  induction l with
  | nil => simp [splitChar]
  | cons x xs ihx =>
    have hx : x ≠ c := fun he => h (by simp [he])
    have hxs : c ∉ xs := fun he => h (by simp [he])
    rw [List.cons_append, splitChar, if_neg hx, ihx hxs]

theorem splitChar_joinChar {c : Char} {ls : List (List Char)} (h0 : ls ≠ [])
    (h : ∀ l ∈ ls, c ∉ l) : splitChar c (joinChar c ls) = ls := by
  induction ls with
  | nil => exact absurd rfl h0
  | cons l rest ihl =>
    cases rest with
    | nil => exact splitChar_not_mem (h l (by simp))
    | cons l₂ ls₂ =>
      rw [joinChar, splitChar_append _ (h l (by simp)),
        ihl (by simp) fun x hx => h x (by simp [hx])]

theorem joinChar_ne_nil {c : Char} {l : List Char} {ls : List (List Char)}
    (h : l ≠ []) : joinChar c (l :: ls) ≠ [] := by
  cases ls with
  | nil => simpa [joinChar]
  | cons l₂ ls₂ =>
    rw [joinChar]
    simp

/-- Structure eta: rebuilding a string from its characters is the identity. -/
theorem mk_data (s : String) : String.mk s.data = s := rfl

theorem data_ne_nil {s : String} (h : s ≠ "") : s.data ≠ [] := by
  intro hd
  exact h (by rw [← mk_data s, hd])

/-! ## Helper lemmas: id generation and the restore counter -/

theorem idSuffix_mkPlayerId (k : Nat) : idSuffix (mkPlayerId k) = some (k : Int) := by
  have hpre : ("player_".data ++ natChars k)
      = "player".data ++ '_' :: natChars k := rfl
  have hnm : '_' ∉ natChars k := by
    intro hm
    exact absurd (natChars_all_digit k '_' hm) (by decide)
  have hsp : splitChar '_' (mkPlayerId k).data
      = ["player".data, natChars k] := by
    show splitChar '_' ("player_".data ++ natChars k) = _
    rw [hpre, splitChar_append _ (by decide), splitChar_not_mem hnm]
  rw [idSuffix, hsp]
  exact jsParseInt_natChars k

theorem bumpCounter_le (ps : List Player) :
    ∀ c : Nat, c ≤ bumpCounter c ps := by
  induction ps with
  | nil => intro c; exact le_refl c
  | cons p rest ihp =>
    intro c
    rw [show bumpCounter c (p :: rest)
        = bumpCounter
            (match idSuffix p.id with
             | some n => if n ≥ (c : Int) then (n + 1).toNat else c
             | none => c)
            rest from rfl]
    rcases hid : idSuffix p.id with _ | n
    · simpa [hid] using ihp c
    · simp only [hid]
      by_cases hge : n ≥ (c : Int)
      · rw [if_pos hge]
        exact le_trans (by omega) (ihp (n + 1).toNat)
      · rw [if_neg hge]
        exact ihp c

theorem bumpCounter_gt (ps : List Player) :
    ∀ c : Nat, ∀ p ∈ ps, ∀ n : Int,
      idSuffix p.id = some n → n < (bumpCounter c ps : Int) := by
  induction ps with
  | nil => intro c p hp; exact absurd hp (by simp)
  | cons q rest ihq =>
    intro c p hp n hn
    rw [show bumpCounter c (q :: rest)
        = bumpCounter
            (match idSuffix q.id with
             | some m => if m ≥ (c : Int) then (m + 1).toNat else c
             | none => c)
            rest from rfl]
    rcases List.mem_cons.1 hp with rfl | hrest
    · rw [hn]
      simp only []
      by_cases hge : n ≥ (c : Int)
      · rw [if_pos hge]
        have := bumpCounter_le rest (n + 1).toNat
        omega
      · rw [if_neg hge]
        have := bumpCounter_le rest c
        omega
    · exact ihq _ p hrest n hn

/-! ## Helper lemmas: player lookup and update -/

theorem mem_updateFirst {pid : String} {f : Player → Player} {ps : List Player}
    {q : Player} (h : q ∈ updateFirst pid f ps) :
    q ∈ ps ∨ ∃ p ∈ ps, q = f p := by
  induction ps with
  | nil => exact absurd h (by simp [updateFirst])
  | cons p rest ihp =>
    rw [updateFirst] at h
    by_cases hid : p.id = pid
    · rw [if_pos hid] at h
      rcases List.mem_cons.1 h with rfl | hr
      · exact Or.inr ⟨p, by simp⟩
      · exact Or.inl (by simp [hr])
    · rw [if_neg hid] at h
      rcases List.mem_cons.1 h with rfl | hr
      · exact Or.inl (by simp)
      · rcases ihp hr with h1 | ⟨p₂, hp₂, he⟩
        · exact Or.inl (by simp [h1])
        · exact Or.inr ⟨p₂, by simp [hp₂], he⟩

theorem findById_cons (p : Player) (ps : List Player) (pid : String) :
    findById (p :: ps) pid = if p.id = pid then some p else findById ps pid := by
  by_cases h : p.id = pid <;> simp [findById, List.find?, h]

theorem findById_updateFirst {pid : String} {f : Player → Player}
    (hf : ∀ p, (f p).id = p.id) (ps : List Player) :
    findById (updateFirst pid f ps) pid = (findById ps pid).map f := by
  induction ps with
  | nil => rfl
  | cons p rest ihp =>
    rw [updateFirst]
    by_cases hid : p.id = pid
    · rw [if_pos hid, findById_cons, if_pos (by rw [hf p, hid]),
        findById_cons, if_pos hid]
      rfl
    · rw [if_neg hid, findById_cons, if_neg hid, findById_cons, if_neg hid]
      exact ihp

theorem enumFrom_map_snd {α β : Type} (f : α → β) :
    ∀ (k : Nat) (l : List α),
      (List.enumFrom k l).map (fun x => f x.2) = l.map f := by
  intro k l
  induction l generalizing k with
  | nil => rfl
  | cons a rest iha => simp [List.enumFrom, iha]

/-! ## Claim C3: Pooch scoring -/

/-- C3: for all integer bids and tricks, the Pooch `calculateScore` returns
`bid + 10` on an exact bid and `-2 * |bid - tricks|` otherwise, with the
spec's four sample values. -/
theorem pooch_score_spec : ∀ bid tricks : Int,
    (bid = tricks → pooch_calculateScore bid tricks = bid + 10) ∧
    (bid ≠ tricks → pooch_calculateScore bid tricks = -2 * |bid - tricks|) ∧
    pooch_calculateScore 5 5 = 15 ∧ pooch_calculateScore 4 3 = -2 ∧
    pooch_calculateScore 0 0 = 10 ∧ pooch_calculateScore 3 0 = -6 := by
  intro bid tricks
  refine ⟨fun h => by simp [pooch_calculateScore, h], fun h => ?_,
    by decide, by decide, by decide, by decide⟩
  rw [pooch_calculateScore, if_neg h, ← Int.abs_eq_natAbs]
  ring

/-- Concrete instantiation of `pooch_score_spec`. -/
theorem pooch_score_spec_witness :
    pooch_calculateScore 7 7 = 7 + 10 ∧
    pooch_calculateScore 6 2 = -2 * |(6 : Int) - 2| :=
  ⟨(pooch_score_spec 7 7).1 rfl, (pooch_score_spec 6 2).2.1 (by decide)⟩

/-! ## Claim C4: cribbage position mapping and win condition -/

/-- C4: cribbage `calculatePosition` clamps the score at 121 (it is exactly
`min score 121`), `checkWin` holds exactly on scores of at least 121, and the
spec's sample values hold. -/
theorem cribbage_logic_spec : ∀ score : Int,
    cribbage_calculatePosition score = min score 121 ∧
    (score ≤ 121 → cribbage_calculatePosition score = score) ∧
    (121 < score → cribbage_calculatePosition score = 121) ∧
    (cribbage_checkWin score = true ↔ 121 ≤ score) ∧
    cribbage_calculatePosition 0 = 0 ∧
    cribbage_calculatePosition 121 = 121 ∧
    cribbage_calculatePosition 200 = 121 ∧
    cribbage_checkWin 120 = false ∧ cribbage_checkWin 121 = true := by
  intro score
  refine ⟨rfl, fun h => ?_, fun h => ?_, ?_,
    by decide, by decide, by decide, by decide, by decide⟩
  · rw [cribbage_calculatePosition, min_eq_left h]
  · rw [cribbage_calculatePosition, min_eq_right (le_of_lt h)]
  · rw [cribbage_checkWin]
    exact decide_eq_true_iff

/-- Concrete instantiation of `cribbage_logic_spec`. -/
theorem cribbage_logic_spec_witness :
    cribbage_calculatePosition 130 = 121 ∧ cribbage_checkWin 500 = true :=
  ⟨(cribbage_logic_spec 130).2.2.1 (by decide),
   (cribbage_logic_spec 500).2.2.2.1.mpr (by decide)⟩

/-! ## Claim C8: `setGameMode` frame -/

/-- C8: `setGameMode` installs the mode, resets `currentRound` to 1, clears
`rounds`, clears every player's `roundData`, and leaves the settings and
every player's id, name, score and position unchanged (in order). -/
theorem setGameMode_spec : ∀ (s : GameState) (mode : String),
    (s.setGameMode mode).gameMode = mode ∧
    (s.setGameMode mode).currentRound = 1 ∧
    (s.setGameMode mode).rounds = [] ∧
    (s.setGameMode mode).settings = s.settings ∧
    (s.setGameMode mode).players.length = s.players.length ∧
    List.Forall₂
      (fun p q => q.id = p.id ∧ q.name = p.name ∧ q.score = p.score ∧
        q.position = p.position ∧ q.roundData = [])
      s.players (s.setGameMode mode).players := by
  intro s mode
  refine ⟨rfl, rfl, rfl, rfl, by simp [GameState.setGameMode], ?_⟩
  rw [show (s.setGameMode mode).players
      = s.players.map (fun p => { p with roundData := [] }) from rfl]
  rw [List.forall₂_map_right_iff]
  exact List.forall₂_same.2 fun p hp => ⟨rfl, rfl, rfl, rfl, rfl⟩

/-- Concrete instantiation of `setGameMode_spec`. -/
theorem setGameMode_spec_witness :
    (freshGameState.setGameMode "pooch").gameMode = "pooch" ∧
    (freshGameState.setGameMode "pooch").currentRound = 1 :=
  ⟨(setGameMode_spec freshGameState "pooch").1,
   (setGameMode_spec freshGameState "pooch").2.1⟩

/-! ## Claim C9: `resetGame` frame -/

/-- C9: `resetGame` zeroes every player's score and position, clears every
player's `roundData`, resets `currentRound` to 1 and clears `rounds`, while
the player list keeps its length, order, ids and names (and the game mode and
settings are untouched). -/
theorem resetGame_spec : ∀ s : GameState,
    s.resetGame.currentRound = 1 ∧
    s.resetGame.rounds = [] ∧
    s.resetGame.gameMode = s.gameMode ∧
    s.resetGame.settings = s.settings ∧
    s.resetGame.players.length = s.players.length ∧
    List.Forall₂
      (fun p q => q.id = p.id ∧ q.name = p.name ∧ q.score = 0 ∧
        q.position = 0 ∧ q.roundData = [])
      s.players s.resetGame.players := by
  intro s
  refine ⟨rfl, rfl, rfl, rfl, by simp [GameState.resetGame], ?_⟩
  rw [show s.resetGame.players
      = s.players.map (fun p =>
          { p with score := 0, position := 0, roundData := [] }) from rfl]
  rw [List.forall₂_map_right_iff]
  exact List.forall₂_same.2 fun p hp => ⟨rfl, rfl, rfl, rfl, rfl⟩

/-- Concrete instantiation of `resetGame_spec`. -/
theorem resetGame_spec_witness :
    freshGameState.resetGame.currentRound = 1 ∧
    freshGameState.resetGame.rounds = [] :=
  ⟨(resetGame_spec freshGameState).1, (resetGame_spec freshGameState).2.1⟩

/-! ## Claim C1: scores never go negative

`updatePlayerScore` and `setPlayerScore` clamp at 0, but `updatePlayer`
merges an unclamped raw `score` field; the invariant therefore holds for
every method-call sequence whose `updatePlayer` calls carry no `score`
field. -/

/-- Does this call avoid the unclamped raw-score write of `updatePlayer`? -/
def noRawScoreWrite : Op → Bool
  | .updatePlayer _ u => u.score.isNone
  | _ => true

theorem applyOp_scoresNonneg {s : GameState} {c : Nat} {o : Op}
    (hs : ScoresNonneg s) (ho : noRawScoreWrite o = true) :
    ScoresNonneg (applyOp (s, c) o).1 := by
  cases o with
  | addPlayer nm =>
    intro p hp
    simp only [applyOp, GameState.addPlayer, List.mem_append,
      List.mem_singleton] at hp
    rcases hp with h1 | rfl
    · exact hs p h1
    · exact le_refl 0
  | removePlayer pid =>
    intro p hp
    simp only [applyOp, GameState.removePlayer] at hp
    exact hs p (List.mem_of_mem_filter hp)
  | updatePlayer pid u =>
    intro p hp
    have hu : u.score = none := by
      simpa [noRawScoreWrite, Option.isNone_iff_eq_none] using ho
    simp only [applyOp, GameState.updatePlayer] at hp
    rcases mem_updateFirst hp with h1 | ⟨q, hq, rfl⟩
    · exact hs p h1
    · simpa [applyPlayerPatch, hu] using hs q hq
  | updatePlayerScore pid d =>
    intro p hp
    simp only [applyOp, GameState.updatePlayerScore] at hp
    rcases mem_updateFirst hp with h1 | ⟨q, hq, rfl⟩
    · exact hs p h1
    · by_cases hm : s.gameMode = "cribbage" <;>
        simp [applyScoreDelta, hm] <;> split <;> omega
  | setPlayerScore pid v =>
    intro p hp
    simp only [applyOp, GameState.setPlayerScore] at hp
    rcases mem_updateFirst hp with h1 | ⟨q, hq, rfl⟩
    · exact hs p h1
    · by_cases hm : s.gameMode = "cribbage" <;> simp [setScoreClamped, hm]
  | setGameMode mode =>
    intro p hp
    simp only [applyOp, GameState.setGameMode, List.mem_map] at hp
    rcases hp with ⟨q, hq, rfl⟩
    exact hs q hq
  | updateSettings u =>
    intro p hp
    exact hs p hp
  | updateRoundData pid round u =>
    intro p hp
    simp only [applyOp, GameState.updateRoundData] at hp
    rcases mem_updateFirst hp with h1 | ⟨q, hq, rfl⟩
    · exact hs p h1
    · simpa using hs q hq
  | resetGame =>
    intro p hp
    simp only [applyOp, GameState.resetGame, List.mem_map] at hp
    rcases hp with ⟨q, hq, rfl⟩
    simp

/-- C1 (amended): starting from any state with no negative score, every
sequence of mutation-method calls whose `updatePlayer` calls carry no raw
`score` field leaves every player's score non-negative; in particular
`updatePlayerScore` and `setPlayerScore` clamp at 0.  (`updatePlayer` with a
`score` field merges the raw value unclamped — see the counterexample.) -/
theorem scores_never_negative :
    ∀ (ops : List Op) (s : GameState) (c : Nat), ScoresNonneg s →
      (∀ o ∈ ops, noRawScoreWrite o = true) →
      ScoresNonneg (applyOps (s, c) ops).1 := by
  intro ops
  induction ops with
  | nil => intro s c hs _; exact hs
  | cons o rest iho =>
    intro s c hs hops
    have h1 : ScoresNonneg (applyOp (s, c) o).1 :=
      applyOp_scoresNonneg hs (hops o (by simp))
    exact iho (applyOp (s, c) o).1 (applyOp (s, c) o).2 h1
      fun o₂ ho₂ => hops o₂ (by simp [ho₂])

/-- Concrete instantiation of `scores_never_negative`: two clamped mutations
that would drive the score below zero. -/
theorem scores_never_negative_witness :
    ScoresNonneg freshGameState ∧
    (∀ o ∈ [Op.addPlayer none, Op.updatePlayerScore "player_0" (-5),
            Op.setPlayerScore "player_0" (-3)], noRawScoreWrite o = true) ∧
    ScoresNonneg (applyOps (freshGameState, 0)
      [Op.addPlayer none, Op.updatePlayerScore "player_0" (-5),
       Op.setPlayerScore "player_0" (-3)]).1 :=
  ⟨by decide, by decide,
   scores_never_negative _ freshGameState 0 (by decide) (by decide)⟩

/-- C1 counterexample: the claim as stated also covers `updatePlayer` with a
`score` field, but that method stores the raw value; one call drives a score
to -5. -/
theorem updatePlayer_negative_score_cex :
    ¬ ScoresNonneg
      (GameState.updatePlayer
        { freshGameState with
            players := [{ id := "player_0", name := "P", score := 0,
                          position := 0, roundData := [] }] }
        "player_0" { score := some (-5) }) := by decide

/-! ## Claim C2: cribbage position tracking -/

/-- C2 (amended): in cribbage mode, after `updatePlayerScore` or
`setPlayerScore` on an existing player, the stored `position` equals the
stored `score` exactly — the mutation does not clamp `position` at 121
(clamping to 121 happens only in the board-position mapping,
`cribbage_calculatePosition`). -/
theorem cribbage_position_tracks_score (s : GameState) (pid : String)
    (d v : Int) (hmode : s.gameMode = "cribbage")
    (hex : (findById s.players pid).isSome = true) :
    (∃ p, findById (s.updatePlayerScore pid d).players pid = some p ∧
       p.position = p.score) ∧
    (∃ p, findById (s.setPlayerScore pid v).players pid = some p ∧
       p.position = p.score) := by
  rcases hfind : findById s.players pid with _ | p₀
  · rw [hfind] at hex
    exact absurd hex (by simp)
  · constructor
    · refine ⟨applyScoreDelta s.gameMode d p₀, ?_, ?_⟩
      · rw [show (s.updatePlayerScore pid d).players
            = updateFirst pid (applyScoreDelta s.gameMode d) s.players from rfl,
          findById_updateFirst
            (fun p => by by_cases hm : s.gameMode = "cribbage" <;>
              simp [applyScoreDelta, hm])
            s.players, hfind]
        rfl
      · simp [applyScoreDelta, hmode]
    · refine ⟨setScoreClamped s.gameMode v p₀, ?_, ?_⟩
      · rw [show (s.setPlayerScore pid v).players
            = updateFirst pid (setScoreClamped s.gameMode v) s.players from rfl,
          findById_updateFirst
            (fun p => by by_cases hm : s.gameMode = "cribbage" <;>
              simp [setScoreClamped, hm])
            s.players, hfind]
        rfl
      · simp [setScoreClamped, hmode]

/-- Concrete instantiation of `cribbage_position_tracks_score`. -/
theorem cribbage_position_tracks_score_witness :
    (∃ p, findById
        ((⟨[⟨"player_0", "P", 3, 3, []⟩], "cribbage", defaultSettings, 1, []⟩ :
            GameState).updatePlayerScore "player_0" 2).players "player_0"
          = some p ∧ p.position = p.score) ∧
    (∃ p, findById
        ((⟨[⟨"player_0", "P", 3, 3, []⟩], "cribbage", defaultSettings, 1, []⟩ :
            GameState).setPlayerScore "player_0" 7).players "player_0"
          = some p ∧ p.position = p.score) :=
  cribbage_position_tracks_score _ "player_0" 2 7 rfl (by decide)

/-! ## Claim C5: `toJSON` / `fromJSON` round trip and id-counter seeding -/

/-- C5: restoring `toJSON(s)` into a fresh container reproduces `s` exactly
(players, gameMode, settings, currentRound, rounds), for any state whose
`gameMode` is a nonempty string and whose `currentRound` is nonzero (both
hold for every state this program builds, by the data-model invariants);
and after the restore the advanced id counter is strictly greater than every
restored id's numeric suffix, so the player added next gets an id whose
numeric suffix exceeds them all. -/
theorem serialize_restore_roundtrip (s : GameState) (c : Nat)
    (name : Option String) (hg : s.gameMode ≠ "") (hr : s.currentRound ≠ 0) :
    ∃ t c₂, freshGameState.fromJSON c s.toJSON = (t, c₂) ∧
      t = s ∧
      (∀ p ∈ t.players, ∀ n : Int, idSuffix p.id = some n → n < (c₂ : Int)) ∧
      idSuffix ((t.addPlayer c₂ name).2.2.id) = some (c₂ : Int) := by
  have hcomp : freshGameState.fromJSON c s.toJSON
      = (s, bumpCounter c s.players) := by
    rcases s with ⟨ps, gm, st, cr, rs⟩
    simp only [ne_eq] at hg hr
    simp [GameState.fromJSON, GameState.toJSON, hg, hr]
  refine ⟨s, bumpCounter c s.players, hcomp, rfl, ?_, ?_⟩
  · exact fun p hp n hn => bumpCounter_gt s.players c p hp n hn
  · rw [show ((s.addPlayer (bumpCounter c s.players) name).2.2.id)
        = mkPlayerId (bumpCounter c s.players) from rfl]
    exact idSuffix_mkPlayerId _

/-- Concrete instantiation of `serialize_restore_roundtrip`: a two-player
pooch state with ids `player_3` and `player_7`. -/
theorem serialize_restore_roundtrip_witness :
    ∃ t c₂,
      freshGameState.fromJSON 1
        (GameState.toJSON
          ⟨[⟨"player_3", "A", 5, 0, []⟩, ⟨"player_7", "B", 2, 0, []⟩],
            "pooch", defaultSettings, 2, []⟩) = (t, c₂) ∧
      t = ⟨[⟨"player_3", "A", 5, 0, []⟩, ⟨"player_7", "B", 2, 0, []⟩],
            "pooch", defaultSettings, 2, []⟩ ∧
      (∀ p ∈ t.players, ∀ n : Int, idSuffix p.id = some n → n < (c₂ : Int)) ∧
      idSuffix ((t.addPlayer c₂ none).2.2.id) = some (c₂ : Int) :=
  serialize_restore_roundtrip _ 1 none (by decide) (by decide)

/-! ## Claim C6: URL encode→decode resets scores but keeps names -/

theorem mk_ne_empty {l : List Char} (h : l ≠ []) : String.mk l ≠ "" := by
  intro he
  exact h (congrArg String.data he)

theorem joinNames_ne_empty {names : List String} (h0 : names ≠ [])
    (hne : ∀ nm ∈ names, nm ≠ "") : joinNames names ≠ "" := by
  rcases names with _ | ⟨nm, rest⟩
  · exact absurd rfl h0
  · exact mk_ne_empty (joinChar_ne_nil (data_ne_nil (hne nm (by simp))))

theorem split_joinNames {names : List String} (h0 : names ≠ [])
    (hc : ∀ nm ∈ names, ',' ∉ nm.data) :
    (splitChar ',' (joinNames names).data).map String.mk = names := by
  rw [show (joinNames names).data = joinChar ',' (names.map String.data) from rfl]
  rw [splitChar_joinChar (by simpa using h0)
    (fun l hl => by
      rcases List.mem_map.1 hl with ⟨nm, hnm, rfl⟩
      exact hc nm hnm)]
  rw [List.map_map]
  rw [show (String.mk ∘ String.data) = id from funext mk_data]
  exact List.map_id names

theorem getParam_serialize_players {s : GameState} (h1 : s.players ≠ []) :
    getParam (serializeToURL s) "players"
      = some (joinNames (s.players.map fun p => p.name)) := by
  have hlen : s.players.length > 0 := List.length_pos.mpr h1
  rw [serializeToURL, if_pos hlen]
  simp [getParam, List.find?]

/-- Under the side conditions, decoding the encoded query reconstructs the
player list from the joined names. -/
theorem decodePlayers_serialize {s : GameState} (h1 : s.players ≠ [])
    (hc : ∀ p ∈ s.players, ',' ∉ p.name.data)
    (hne : ∀ p ∈ s.players, p.name ≠ "") :
    decodePlayers (serializeToURL s)
      = ((s.players.map fun p => p.name).enum.map fun x =>
          { id := mkPlayerId x.1, name := jsTrim x.2, score := 0,
            position := 0, roundData := [] }) := by
  have hnames0 : (s.players.map fun p => p.name) ≠ [] := by simpa using h1
  have hcn : ∀ nm ∈ s.players.map fun p => p.name, ',' ∉ nm.data := by
    intro nm hnm
    rcases List.mem_map.1 hnm with ⟨p, hp, rfl⟩
    exact hc p hp
  have hnen : ∀ nm ∈ s.players.map fun p => p.name, nm ≠ "" := by
    intro nm hnm
    rcases List.mem_map.1 hnm with ⟨p, hp, rfl⟩
    exact hne p hp
  simp only [decodePlayers, getParam_serialize_players h1]
  rw [if_neg (joinNames_ne_empty hnames0 hnen), split_joinNames hnames0 hcn]

/-- C6 (amended): for every state with at least one player, all of whose
player names are nonempty, comma-free, and free of leading/trailing
whitespace, encoding to a URL query and decoding it back yields a snapshot
whose players all have score 0, position 0, and empty `roundData`, with
`currentRound` reset to 1 and `rounds` empty, while the player names are
preserved in order — the encode/decode pair deliberately drops scores and
round progress.  (Without the name side conditions the name list is not
preserved — see the counterexample.) -/
theorem url_encode_decode_resets_scores (s : GameState) (h1 : s.players ≠ [])
    (h2 : ∀ p ∈ s.players,
      ',' ∉ p.name.data ∧ jsTrim p.name = p.name ∧ p.name ≠ "") :
    ∃ snap ps, deserializeFromURL (serializeToURL s) = some snap ∧
      snap.players = some ps ∧
      ps.map (fun p => p.name) = s.players.map (fun p => p.name) ∧
      (∀ p ∈ ps, p.score = 0 ∧ p.position = 0 ∧ p.roundData = []) ∧
      snap.currentRound = some 1 ∧ snap.rounds = some [] := by
  have hq : serializeToURL s ≠ [] := by simp [serializeToURL]
  have hdec := decodePlayers_serialize h1 (fun p hp => (h2 p hp).1)
    (fun p hp => (h2 p hp).2.2)
  rw [deserializeFromURL, if_neg hq]
  refine ⟨_, decodePlayers (serializeToURL s), rfl, rfl, ?_, ?_, rfl, rfl⟩
  · rw [hdec, List.map_map]
    rw [show List.enum (s.players.map fun p => p.name)
        = List.enumFrom 0 (s.players.map fun p => p.name) from rfl]
    rw [show ((fun p : Player => p.name) ∘ fun x : Nat × String =>
          ({ id := mkPlayerId x.1, name := jsTrim x.2, score := 0,
             position := 0, roundData := [] } : Player))
        = fun x : Nat × String => jsTrim x.2 from rfl]
    rw [enumFrom_map_snd jsTrim 0, List.map_map]
    exact List.map_congr_left fun p hp => (h2 p hp).2.1
  · intro p hp
    rw [hdec] at hp
    rcases List.mem_map.1 hp with ⟨x, hx, rfl⟩
    exact ⟨rfl, rfl, rfl⟩

/-- Concrete instantiation of `url_encode_decode_resets_scores`: two players
with nonzero scores come back named, with scores 0. -/
theorem url_encode_decode_resets_scores_witness :
    ∃ snap ps,
      deserializeFromURL (serializeToURL
        ⟨[⟨"player_0", "Alice", 42, 0, []⟩, ⟨"player_1", "Bob", 7, 0, []⟩],
          "custom", defaultSettings, 3, []⟩) = some snap ∧
      snap.players = some ps ∧
      ps.map (fun p => p.name)
        = ((⟨[⟨"player_0", "Alice", 42, 0, []⟩, ⟨"player_1", "Bob", 7, 0, []⟩],
            "custom", defaultSettings, 3, []⟩ : GameState)).players.map
            (fun p => p.name) ∧
      (∀ p ∈ ps, p.score = 0 ∧ p.position = 0 ∧ p.roundData = []) ∧
      snap.currentRound = some 1 ∧ snap.rounds = some [] :=
  url_encode_decode_resets_scores _ (by decide) (by decide)

/-- C6 counterexample: a player whose name contains a comma is split into two
players by decode, so names are *not* preserved for arbitrary states. -/
theorem url_decode_splits_comma_name_cex :
    ((deserializeFromURL (serializeToURL
        ⟨[⟨"player_0", "A,B", 0, 0, []⟩], "custom", defaultSettings, 1, []⟩)).bind
      Snapshot.players).map (List.map fun p => p.name) = some ["A", "B"] ∧
    ((⟨[⟨"player_0", "A,B", 0, 0, []⟩], "custom", defaultSettings, 1, []⟩ :
        GameState)).players.map (fun p => p.name) = ["A,B"] ∧
    some ["A", "B"] ≠ some ["A,B"] := by
  refine ⟨by decide, by decide, by decide⟩

/-! ## Claim C7: decode null-signalling and defaults -/

/-- C7 (amended): `deserializeFromURL` returns `null` exactly on the empty
query string; otherwise every boolean setting decodes to true unless the
parameter is the literal string `false`, and `numberOfRounds` equals 10
whenever `numRounds` is missing, non-numeric, or parses to 0, and otherwise
equals the parsed integer — which is **not** clamped to be at least 1, so a
negative `numRounds` is kept. -/
theorem deserialize_defaults (q : List (String × String)) :
    (deserializeFromURL q = none ↔ q = []) ∧
    (∀ st, deserializeFromURL q = some st →
      ∃ settings, st.settings = some settings ∧
        (settings.showRounds = false ↔ getParam q "showRounds" = some "false") ∧
        (settings.showBids = false ↔ getParam q "showBids" = some "false") ∧
        (settings.showTricks = false ↔ getParam q "showTricks" = some "false") ∧
        (settings.showDeal = false ↔ getParam q "showDeal" = some "false") ∧
        (getParam q "numRounds" = none → settings.numberOfRounds = 10) ∧
        (∀ v, getParam q "numRounds" = some v →
          (jsParseInt v.data = none → settings.numberOfRounds = 10) ∧
          (jsParseInt v.data = some 0 → settings.numberOfRounds = 10) ∧
          (∀ n : Int, jsParseInt v.data = some n → n ≠ 0 →
            settings.numberOfRounds = n))) := by
  constructor
  · by_cases hq : q = [] <;> simp [deserializeFromURL, hq]
  · intro st hst
    have hq : q ≠ [] := by
      intro he
      rw [deserializeFromURL, if_pos he] at hst
      exact Option.noConfusion hst
    rw [deserializeFromURL, if_neg hq] at hst
    obtain rfl := Option.some_injective _ hst
    refine ⟨_, rfl, ?_, ?_, ?_, ?_, ?_, ?_⟩
    · simp [boolParam]
    · simp [boolParam]
    · simp [boolParam]
    · simp [boolParam]
    · intro h0
      simp [numRoundsParam, h0]
    · intro v hv
      refine ⟨fun hn => ?_, fun hn => ?_, fun n hn hne => ?_⟩
      · simp [numRoundsParam, hv, hn]
      · simp [numRoundsParam, hv, hn]
      · simp [numRoundsParam, hv, hn, hne]

/-- Concrete instantiation of `deserialize_defaults`: the empty query decodes
to `null`, and a garbage `showRounds` value decodes to `true`. -/
theorem deserialize_defaults_witness :
    deserializeFromURL [] = none ∧
    ∃ settings,
      (deserializeFromURL [("showRounds", "garbage")]).bind Snapshot.settings
        = some settings ∧ settings.showRounds = true := by
  refine ⟨(deserialize_defaults []).1.mpr rfl, ?_⟩
  obtain ⟨settings, hset, h1, _⟩ :=
    (deserialize_defaults [("showRounds", "garbage")]).2 _ rfl
  refine ⟨settings, hset, ?_⟩
  cases hs : settings.showRounds
  · exact absurd (h1.mp hs) (by decide)
  · rfl

/-- C7 counterexample: the claim asserts `numberOfRounds ≥ 1`, but the code
keeps a parsed negative value: `numRounds=-5` decodes to -5. -/
theorem deserialize_negative_numRounds_cex :
    ∃ st, deserializeFromURL [("numRounds", "-5")] = some st ∧
      ∃ settings, st.settings = some settings ∧
        settings.numberOfRounds = -5 ∧ ¬(1 ≤ settings.numberOfRounds) :=
  ⟨_, rfl, _, rfl, by decide, by decide⟩

/-! ## Claim C10: URL state without players bypasses the default seeding -/

/-- C10: a non-empty query string with no `players` parameter (here, only a
`theme`) decodes to a non-null snapshot with an empty players list, and
`init` — which uses a non-null URL snapshot exclusively — then restores a
state with zero players instead of seeding the two default players, whatever
the saved-storage snapshot is. -/
theorem url_without_players_overrides_defaults :
    ∀ saved : Option Snapshot,
      ([("theme", "dark")] : List (String × String)) ≠ [] ∧
      getParam [("theme", "dark")] "players" = none ∧
      (∃ st, deserializeFromURL [("theme", "dark")] = some st ∧
        st.players = some []) ∧
      (init [("theme", "dark")] saved).1.players = [] ∧
      (init [("theme", "dark")] saved).1.players.length ≠ 2 := by
  intro saved
  refine ⟨by decide, by decide, ⟨_, rfl, rfl⟩, rfl, ?_⟩
  rw [show (init [("theme", "dark")] saved).1.players = [] from rfl]
  decide

/-- Concrete instantiation of `url_without_players_overrides_defaults`. -/
theorem url_without_players_overrides_defaults_witness :
    (init [("theme", "dark")] none).1.players = [] :=
  (url_without_players_overrides_defaults none).2.2.2.1

/-- C2 counterexample: a +200 cribbage mutation stores `position = 200`,
which differs from `min(score, 121) = 121`; the stored position is not
clamped. -/
theorem cribbage_position_unclamped_cex :
    ∃ p, findById
        (GameState.updatePlayerScore
          { freshGameState with
              gameMode := "cribbage"
              players := [{ id := "player_0", name := "P", score := 0,
                            position := 0, roundData := [] }] }
          "player_0" 200).players "player_0" = some p ∧
      p.score = 200 ∧ p.position = 200 ∧
      cribbage_calculatePosition p.score = 121 ∧
      p.position ≠ min p.score 121 :=
  ⟨{ id := "player_0", name := "P", score := 200, position := 200,
     roundData := [] },
   by decide, by decide, by decide, by decide, by decide⟩

end Scoreboard
